import Mathlib

/-!
Shallow embedding of the Todo CRUD service (main.go).

The persisted `todos` table is modelled as a `StoreState`: the list of rows
together with the autoincrement counter the storage engine uses for the next
generated id (SQLite `INTEGER PRIMARY KEY AUTOINCREMENT`).  The five
`TodoSQLStore` operations become state-passing functions returning `Except`,
with the SQL statement of each method translated to the corresponding list
operation.  Timestamps are modelled as natural numbers; the current time is
passed in explicitly where the storage engine would fill `created_at`.

The HTTP layer is modelled per handler: `strconv.Atoi` is translated from its
documented semantics (optional sign, decimal digits, 64-bit range), and the
`encoding/json` decoding used by the handlers is translated over a small JSON
value type (`Unmarshal` into `Todo` and into `*Todo`): `null` into a pointer
yields a nil pointer without error, objects fill the known fields (missing
fields keep the zero value, later duplicates win, unknown keys are ignored),
and a type mismatch is a decode error.
-/

/-- The Todo entity, fields as in the Go struct (CreatedAt as a numeric
timestamp). -/
structure Todo where
  ID : Int
  Title : String
  Completed : Bool
  CreatedAt : Nat
deriving Repr, DecidableEq

/-- The zero value of the Go struct `Todo`. -/
def zeroTodo : Todo := { ID := 0, Title := "", Completed := false, CreatedAt := 0 }

/-- The state of the `todos` table: its rows plus the autoincrement counter
for the next generated id. -/
structure StoreState where
  rows : List Todo
  nextID : Int
deriving Repr, DecidableEq

/-- The error text of database/sql `ErrNoRows`, surfaced by `row.Scan` when
the query matched no row. -/
def sqlErrNoRows : String := "sql: no rows in result set"

/-- TodoSQLStore.GetAll: SELECT of every row. -/
def GetAll (s : StoreState) : Except String (List Todo) :=
  Except.ok s.rows

/-- TodoSQLStore.GetByID: SELECT ... WHERE id = ?; scanning an empty result
set yields the no-rows error. -/
def GetByID (s : StoreState) (id : Int) : Except String Todo :=
  match s.rows.find? (fun t => t.ID == id) with
  | some t => Except.ok t
  | none => Except.error sqlErrNoRows

/-- TodoSQLStore.Create: INSERT INTO todos (title) VALUES (?) — the engine
fills id (autoincrement), completed (default false) and created_at (now) —
then a re-read by the generated id. -/
def Create (s : StoreState) (title : String) (now : Nat) : Except String (Todo × StoreState) :=
  let inserted : Todo := { ID := s.nextID, Title := title, Completed := false, CreatedAt := now }
  let s' : StoreState := { rows := s.rows ++ [inserted], nextID := s.nextID + 1 }
  match GetByID s' s.nextID with
  | Except.ok t => Except.ok (t, s')
  | Except.error e => Except.error e

/-- Effect of UPDATE todos SET title = ?, completed = ? WHERE id = ? on one
row. -/
def updateRow (todo r : Todo) : Todo :=
  if r.ID == todo.ID then { r with Title := todo.Title, Completed := todo.Completed } else r

/-- Effect of the UPDATE statement on the whole table. -/
def updateRows (rows : List Todo) (todo : Todo) : List Todo :=
  rows.map (updateRow todo)

/-- TodoSQLStore.Update: one UPDATE statement; the affected-rows count is
discarded, so matching zero rows is still success. -/
def Update (s : StoreState) (todo : Todo) : Except String StoreState :=
  Except.ok { rows := updateRows s.rows todo, nextID := s.nextID }

/-- TodoSQLStore.Delete: DELETE FROM todos WHERE id = ?; the affected-rows
count is discarded, so matching zero rows is still success. -/
def Delete (s : StoreState) (id : Int) : Except String StoreState :=
  Except.ok { rows := s.rows.filter (fun r => r.ID != id), nextID := s.nextID }

/-- Well-formedness the storage engine maintains: every stored id is below
the autoincrement counter, and ids are unique. -/
def WF (s : StoreState) : Prop :=
  (∀ r ∈ s.rows, r.ID < s.nextID) ∧ (s.rows.map Todo.ID).Nodup

instance (s : StoreState) : Decidable (WF s) := by
  unfold WF; infer_instance

/-- Decimal value of an ASCII digit, as strconv accepts it. -/
def digitVal (c : Char) : Option Nat :=
  if '0' ≤ c ∧ c ≤ '9' then some (c.toNat - '0'.toNat) else none

/-- Accumulate decimal digits left to right; any non-digit poisons the
parse. -/
def parseDigits : Option Nat → List Char → Option Nat
  | acc, [] => acc
  | acc, c :: cs =>
    match acc, digitVal c with
    | some n, some d => parseDigits (some (n * 10 + d)) cs
    | _, _ => none

/-- String s surrounded by double quotes, as strconv error texts print it. -/
def quoted (s : String) : String := "\"" ++ s ++ "\""

/-- strconv.Atoi: optional sign then one or more decimal digits, result
within the 64-bit int range; otherwise the syntax or range error. -/
def Atoi (s : String) : Except String Int :=
  let cs := s.data
  let body : List Char :=
    match cs with
    | '-' :: rest => rest
    | '+' :: rest => rest
    | rest => rest
  let neg : Bool :=
    match cs with
    | '-' :: _ => true
    | _ => false
  if body.isEmpty then
    Except.error ("strconv.Atoi: parsing " ++ quoted s ++ ": invalid syntax")
  else
    match parseDigits (some 0) body with
    | none => Except.error ("strconv.Atoi: parsing " ++ quoted s ++ ": invalid syntax")
    | some n =>
      let v : Int := if neg then -(n : Int) else (n : Int)
      if v < -(2 ^ 63) ∨ (2 ^ 63 : Int) ≤ v then
        Except.error ("strconv.Atoi: parsing " ++ quoted s ++ ": value out of range")
      else
        Except.ok v

/-- JSON values, as far as the request bodies need them. -/
inductive Json where
  | null
  | bool (b : Bool)
  | num (n : Int)
  | str (s : String)
  | arr (elems : List Json)
  | obj (fields : List (String × Json))

/-- encoding/json: effect of one object member on a Todo being filled in.
Known keys require the matching JSON type; unknown keys are ignored. -/
def applyField (t : Todo) (key : String) (v : Json) : Except String Todo :=
  if key = "id" then
    match v with
    | Json.num n => Except.ok { t with ID := n }
    | _ => Except.error "json: cannot unmarshal value into Go struct field Todo.id of type int"
  else if key = "title" then
    match v with
    | Json.str s => Except.ok { t with Title := s }
    | _ => Except.error "json: cannot unmarshal value into Go struct field Todo.title of type string"
  else if key = "completed" then
    match v with
    | Json.bool b => Except.ok { t with Completed := b }
    | _ => Except.error "json: cannot unmarshal value into Go struct field Todo.completed of type bool"
  else if key = "created_at" then
    match v with
    | Json.num n =>
      if 0 ≤ n then Except.ok { t with CreatedAt := n.toNat }
      else Except.error "parsing time: value out of range"
    | _ => Except.error "parsing time: not a timestamp"
  else
    Except.ok t

/-- encoding/json: fold the object members over the struct, later duplicates
winning, stopping at the first type error. -/
def decodeFields : Todo → List (String × Json) → Except String Todo
  | t, [] => Except.ok t
  | t, (k, v) :: rest =>
    match applyField t k v with
    | Except.ok t' => decodeFields t' rest
    | Except.error e => Except.error e

/-- encoding/json: Unmarshal into a Todo value (the PUT handler's
`var todo Todo`): null leaves the zero value untouched, an object fills the
fields, anything else is a type error. -/
def decodeTodo (j : Json) : Except String Todo :=
  match j with
  | Json.null => Except.ok zeroTodo
  | Json.obj fields => decodeFields zeroTodo fields
  | _ => Except.error "json: cannot unmarshal value into Go value of type main.Todo"

/-- encoding/json: Unmarshal into a *Todo (the POST handler's
`var todo *Todo`): null yields a nil pointer without error, an object
allocates and fills a Todo. -/
def decodeTodoPtr (j : Json) : Except String (Option Todo) :=
  match j with
  | Json.null => Except.ok none
  | Json.obj fields =>
    match decodeFields zeroTodo fields with
    | Except.ok t => Except.ok (some t)
    | Except.error e => Except.error e
  | _ => Except.error "json: cannot unmarshal value into Go value of type *main.Todo"

/-- HTTP methods the handlers distinguish. -/
inductive Method where
  | get
  | post
  | put
  | delete
  | other
deriving Repr, DecidableEq

/-- What a handler writes as the response body: a JSON-encoded Todo, a
JSON-encoded slice of Todos, plain error/message text, or nothing. -/
inductive Body where
  | json (t : Todo)
  | jsonList (ts : List Todo)
  | text (msg : String)
  | empty
deriving Repr, DecidableEq

/-- An HTTP response: status code and body. -/
structure Response where
  status : Nat
  body : Body
deriving Repr, DecidableEq

/-- Outcome of running a handler: a response together with the resulting
storage state, or a nil-pointer dereference (a Go runtime panic, so no
response is written at all). -/
inductive HandlerResult where
  | ok (resp : Response) (s : StoreState)
  | nilDeref
deriving Repr, DecidableEq

/-- The /todos handler: GET lists all rows, POST decodes the body into a
*Todo, reads todo.Title (a nil dereference when the body was null) and
creates the row; other methods get 405. -/
def todosHandler (method : Method) (reqBody : Json) (s : StoreState) (now : Nat) : HandlerResult :=
  match method with
  | Method.get =>
    match GetAll s with
    | Except.error e => HandlerResult.ok { status := 500, body := Body.text e } s
    | Except.ok todos => HandlerResult.ok { status := 200, body := Body.jsonList todos } s
  | Method.post =>
    match decodeTodoPtr reqBody with
    | Except.error e => HandlerResult.ok { status := 400, body := Body.text e } s
    | Except.ok none => HandlerResult.nilDeref
    | Except.ok (some todo) =>
      match Create s todo.Title now with
      | Except.error e => HandlerResult.ok { status := 500, body := Body.text e } s
      | Except.ok (t, s') => HandlerResult.ok { status := 200, body := Body.json t } s'
  | _ => HandlerResult.ok { status := 405, body := Body.text "Method not allowed" } s

/-- The /todos/ handler: the path suffix after the prefix is parsed with
Atoi before the method switch (parse failure answers 400 for any method);
GET fetches by id (any store error becomes 500), PUT decodes the body,
overwrites its id with the path id, updates and echoes the input todo,
DELETE deletes; other methods get 405. -/
def todosIdHandler (pathSuffix : String) (method : Method) (reqBody : Json)
    (s : StoreState) : HandlerResult :=
  match Atoi pathSuffix with
  | Except.error e => HandlerResult.ok { status := 400, body := Body.text e } s
  | Except.ok id =>
    match method with
    | Method.get =>
      match GetByID s id with
      | Except.error e => HandlerResult.ok { status := 500, body := Body.text e } s
      | Except.ok t => HandlerResult.ok { status := 200, body := Body.json t } s
    | Method.put =>
      match decodeTodo reqBody with
      | Except.error e => HandlerResult.ok { status := 400, body := Body.text e } s
      | Except.ok t0 =>
        let t : Todo := { t0 with ID := id }
        match Update s t with
        | Except.error e => HandlerResult.ok { status := 500, body := Body.text e } s
        | Except.ok s' => HandlerResult.ok { status := 200, body := Body.json t } s'
    | Method.delete =>
      match Delete s id with
      | Except.error e => HandlerResult.ok { status := 500, body := Body.text e } s
      | Except.ok s' => HandlerResult.ok { status := 200, body := Body.empty } s'
    | _ => HandlerResult.ok { status := 405, body := Body.text "Method not allowed" } s

/-! ### Helper lemmas -/

/-- A singleton appended on the right whose element satisfies the predicate
makes find? succeed. -/
lemma find?_append_singleton (l : List Todo) (x : Todo) (p : Todo → Bool) (hp : p x = true) :
    ∃ y, (l ++ [x]).find? p = some y := by
  rw [List.find?_append]
  cases hl : l.find? p with
  | some y => exact ⟨y, rfl⟩
  | none => exact ⟨x, by simp [hp]⟩

/-- The row the INSERT of Create adds: fresh id, the given title, the
column defaults for completed and created_at. -/
def insertedRow (s : StoreState) (title : String) (now : Nat) : Todo :=
  { ID := s.nextID, Title := title, Completed := false, CreatedAt := now }

/-- The state after the INSERT of Create: the fresh row appended, the
counter bumped. -/
def createdState (s : StoreState) (title : String) (now : Nat) : StoreState :=
  { rows := s.rows ++ [insertedRow s title now], nextID := s.nextID + 1 }

/-- When every stored id is below the counter, Create returns exactly the
freshly inserted row and the state extended by it. -/
lemma Create_eq (s : StoreState) (title : String) (now : Nat)
    (h : ∀ r ∈ s.rows, r.ID < s.nextID) :
    Create s title now = Except.ok (insertedRow s title now, createdState s title now) := by
  have hnone : s.rows.find? (fun t => t.ID == s.nextID) = none := by
    rw [List.find?_eq_none]
    intro x hx
    have hx' := h x hx
    simp only [beq_iff_eq]
    omega
  simp [Create, GetByID, insertedRow, createdState, List.find?_append, hnone]

/-- Unconditionally, a successful Create appended exactly the fresh row. -/
lemma Create_state (s : StoreState) (title : String) (now : Nat) :
    ∃ t, Create s title now = Except.ok (t, createdState s title now) := by
  cases h : s.rows.find? (fun t => t.ID == s.nextID) with
  | some y =>
    exact ⟨y, by simp [Create, GetByID, createdState, insertedRow, List.find?_append, h]⟩
  | none =>
    exact ⟨insertedRow s title now,
      by simp [Create, GetByID, createdState, insertedRow, List.find?_append, h]⟩

/-- An UPDATE matching no row leaves the table unchanged. -/
lemma updateRows_no_match (l : List Todo) (todo : Todo) (h : ∀ r ∈ l, r.ID ≠ todo.ID) :
    updateRows l todo = l := by
  induction l with
  | nil => rfl
  | cons a t ih =>
    have ha : ¬ a.ID = todo.ID := h a (List.mem_cons_self a t)
    have ht : updateRows t todo = t := ih (fun r hr => h r (List.mem_cons_of_mem a hr))
    simp only [updateRows, List.map_cons] at ht ⊢
    rw [ht, updateRow, if_neg (by simpa using ha)]

/-- A DELETE matching no row leaves the table unchanged. -/
lemma filter_no_match (l : List Todo) (id : Int) (h : ∀ r ∈ l, r.ID ≠ id) :
    l.filter (fun r => r.ID != id) = l := by
  rw [List.filter_eq_self]
  intro a ha
  simpa using h a ha

/-- After an UPDATE whose id occurs in the table, lookup by that id finds a
row carrying the new title and completed flag. -/
lemma find?_updateRows (l : List Todo) (todo : Todo) (hex : ∃ r ∈ l, r.ID = todo.ID) :
    ∃ t, (updateRows l todo).find? (fun x => x.ID == todo.ID) = some t ∧
      t.Title = todo.Title ∧ t.Completed = todo.Completed := by
  induction l with
  | nil => simp at hex
  | cons a rest ih =>
    by_cases ha : a.ID = todo.ID
    · refine ⟨{ a with Title := todo.Title, Completed := todo.Completed }, ?_, rfl, rfl⟩
      simp [updateRows, updateRow, ha]
    · obtain ⟨r, hr, hrid⟩ := hex
      rcases List.mem_cons.mp hr with rfl | hrt
      · exact absurd hrid ha
      · obtain ⟨t, hfind, h1, h2⟩ := ih ⟨r, hrt, hrid⟩
        refine ⟨t, ?_, h1, h2⟩
        simp only [updateRows, List.map_cons] at hfind ⊢
        rw [updateRow, if_neg (by simpa using ha), List.find?_cons_of_neg _ (by simpa using ha)]
        exact hfind

/-- With unique ids, deleting an id that occurs removes exactly one row. -/
lemma filter_ne_length (l : List Todo) (id : Int)
    (hnd : (l.map Todo.ID).Nodup) (hex : ∃ r ∈ l, r.ID = id) :
    (l.filter (fun r => r.ID != id)).length + 1 = l.length := by
  induction l with
  | nil => simp at hex
  | cons a rest ih =>
    rw [List.map_cons, List.nodup_cons] at hnd
    obtain ⟨hna, hnd'⟩ := hnd
    by_cases ha : a.ID = id
    · have hrest : ∀ r ∈ rest, r.ID ≠ id := by
        intro r hr hrid
        apply hna
        have hid : a.ID = r.ID := by rw [ha, hrid]
        rw [hid]
        exact List.mem_map_of_mem Todo.ID hr
      have hfil : rest.filter (fun r => r.ID != id) = rest := filter_no_match rest id hrest
      simp [List.filter_cons, ha, hfil]
    · obtain ⟨r, hr, hrid⟩ := hex
      rcases List.mem_cons.mp hr with rfl | hrt
      · exact absurd hrid ha
      · have hlen := ih hnd' ⟨r, hrt, hrid⟩
        simp only [List.filter_cons, List.length_cons]
        rw [if_pos (by simpa using ha)]
        simp only [List.length_cons]
        omega

/-- Filling any non-title member leaves the Title field unchanged. -/
lemma applyField_Title_ne (t : Todo) (k : String) (v : Json) (t' : Todo)
    (hk : ¬ k = "title") (h : applyField t k v = Except.ok t') : t'.Title = t.Title := by
  unfold applyField at h
  split_ifs at h with h1 h2 h3
  · cases v <;> simp_all
    rw [← h]
  · cases v <;> simp_all
    rw [← h]
  · cases v <;> simp_all
    split_ifs at h; simp_all
    try rw [← h]
  · simp_all

/-- Decoding members whose every title value is the empty string keeps the
Title field empty. -/
lemma decodeFields_Title (l : List (String × Json)) :
    ∀ t t' : Todo, (∀ v, ("title", v) ∈ l → v = Json.str "") →
      t.Title = "" → decodeFields t l = Except.ok t' → t'.Title = "" := by
  induction l with
  | nil =>
    intro t t' _ ht h
    simp only [decodeFields] at h
    cases h
    exact ht
  | cons kv rest ih =>
    intro t t' hv ht h
    obtain ⟨k, v⟩ := kv
    simp only [decodeFields] at h
    cases happ : applyField t k v with
    | error e => rw [happ] at h; cases h
    | ok t1 =>
      rw [happ] at h
      have ht1 : t1.Title = "" := by
        by_cases hk : k = "title"
        · subst hk
          have hv0 : v = Json.str "" := hv v (List.mem_cons_self _ _)
          subst hv0
          have : applyField t "title" (Json.str "") = Except.ok { t with Title := "" } := by
            simp [applyField]
          rw [this] at happ
          cases happ
          rfl
        · exact (applyField_Title_ne t k v t1 hk happ).trans ht
      exact ih t1 t' (fun v' hv' => hv v' (List.mem_cons_of_mem _ hv')) ht1 h

/-- Rows searched for the not-yet-used counter value never match. -/
lemma find?_nextID_none (s : StoreState) (h : ∀ r ∈ s.rows, r.ID < s.nextID) :
    s.rows.find? (fun t => t.ID == s.nextID) = none := by
  rw [List.find?_eq_none]
  intro x hx
  have hx' := h x hx
  simp only [beq_iff_eq]
  omega

/-- Updating a row never touches its ID or CreatedAt column. -/
lemma updateRows_map_frame (l : List Todo) (todo : Todo) :
    (updateRows l todo).map (fun r => (r.ID, r.CreatedAt)) =
      l.map (fun r => (r.ID, r.CreatedAt)) := by
  induction l with
  | nil => rfl
  | cons a rest ih =>
    simp only [updateRows, List.map_cons] at ih ⊢
    rw [ih]
    simp only [updateRow]
    split <;> rfl

/-! ### Claims -/

/-- C1: for every title T, Create(T) followed by GetByID on the id of the
returned Todo yields a Todo whose Title equals T and whose Completed field
is false; Create inserts the row with completed = false and re-reads it by
the generated id to return the fully populated entity. -/
theorem C1_create_then_getByID (s : StoreState) (title : String) (now : Nat)
    (h : ∀ r ∈ s.rows, r.ID < s.nextID) :
    ∃ t s', Create s title now = Except.ok (t, s') ∧
      t.Title = title ∧ t.Completed = false ∧ GetByID s' t.ID = Except.ok t := by
  refine ⟨insertedRow s title now, createdState s title now,
    Create_eq s title now h, rfl, rfl, ?_⟩
  simp [GetByID, createdState, insertedRow, List.find?_append, find?_nextID_none s h]

/-- C1 witness at a concrete store. -/
theorem C1_create_then_getByID_witness :
    ∃ t s', Create { rows := [], nextID := 1 } "buy milk" 0 = Except.ok (t, s') ∧
      t.Title = "buy milk" ∧ t.Completed = false ∧ GetByID s' t.ID = Except.ok t :=
  C1_create_then_getByID { rows := [], nextID := 1 } "buy milk" 0 (by simp)

/-- C2: for every id existing in storage, Update with a Todo carrying that
id and then GetByID on it returns a Todo whose title (and completed flag)
is the updated one. -/
theorem C2_update_then_getByID (s : StoreState) (todo : Todo)
    (hex : ∃ r ∈ s.rows, r.ID = todo.ID) (s' : StoreState)
    (h : Update s todo = Except.ok s') :
    ∃ t, GetByID s' todo.ID = Except.ok t ∧
      t.Title = todo.Title ∧ t.Completed = todo.Completed := by
  simp only [Update, Except.ok.injEq] at h
  subst h
  obtain ⟨t, hfind, h1, h2⟩ := find?_updateRows s.rows todo hex
  exact ⟨t, by simp [GetByID, hfind], h1, h2⟩

/-- C2 witness at a concrete store. -/
theorem C2_update_then_getByID_witness :
    ∃ t, GetByID { rows := [⟨1, "new", true, 0⟩], nextID := 2 } 1 = Except.ok t ∧
      t.Title = "new" ∧ t.Completed = true :=
  C2_update_then_getByID { rows := [⟨1, "old", false, 0⟩], nextID := 2 }
    ⟨1, "new", true, 0⟩ (by simp) { rows := [⟨1, "new", true, 0⟩], nextID := 2 } (by rfl)

/-- C3: after a successful Delete(id), GetByID(id) fails with the storage
no-rows error rather than returning a Todo. -/
theorem C3_delete_then_getByID (s : StoreState) (id : Int) (s' : StoreState)
    (h : Delete s id = Except.ok s') :
    GetByID s' id = Except.error sqlErrNoRows := by
  simp only [Delete, Except.ok.injEq] at h
  subst h
  have hnone : (s.rows.filter (fun r => r.ID != id)).find? (fun t => t.ID == id) = none := by
    rw [List.find?_eq_none]
    intro x hx
    rw [List.mem_filter] at hx
    simpa using hx.2
  simp [GetByID, hnone]

/-- C3 witness at a concrete store. -/
theorem C3_delete_then_getByID_witness :
    GetByID { rows := [], nextID := 2 } 1 = Except.error sqlErrNoRows :=
  C3_delete_then_getByID { rows := [⟨1, "a", false, 0⟩], nextID := 2 } 1
    { rows := [], nextID := 2 } (by rfl)

/-- C4: Update with an id matching no row returns success and changes
nothing, and Delete of an id matching no row returns success and changes
nothing: both are silent no-ops when zero rows match. -/
theorem C4_missing_row_noop (s : StoreState) (id : Int)
    (h : ∀ r ∈ s.rows, r.ID ≠ id) :
    (∀ todo : Todo, todo.ID = id → Update s todo = Except.ok s) ∧
      Delete s id = Except.ok s := by
  constructor
  · intro todo hid
    subst hid
    simp only [Update, Except.ok.injEq]
    rw [updateRows_no_match s.rows todo h]
  · simp only [Delete, Except.ok.injEq]
    rw [filter_no_match s.rows id h]

/-- C4 witness at a concrete store. -/
theorem C4_missing_row_noop_witness :
    Update { rows := [⟨1, "a", false, 0⟩], nextID := 2 } ⟨5, "x", true, 0⟩ =
        Except.ok { rows := [⟨1, "a", false, 0⟩], nextID := 2 } ∧
      Delete { rows := [⟨1, "a", false, 0⟩], nextID := 2 } 5 =
        Except.ok { rows := [⟨1, "a", false, 0⟩], nextID := 2 } :=
  ⟨(C4_missing_row_noop { rows := [⟨1, "a", false, 0⟩], nextID := 2 } 5
      (by simp)).1 ⟨5, "x", true, 0⟩ rfl,
    (C4_missing_row_noop { rows := [⟨1, "a", false, 0⟩], nextID := 2 } 5 (by simp)).2⟩

/-- C5: for every PUT to /todos/id with a well-formed body and a successful
Update, the handler overwrites the decoded Todo's id with the path id, calls
Update with that Todo, and responds 200 with the JSON of that input Todo
(the state shows Update ran on it; the body is not re-fetched from
storage). -/
theorem C5_put_echoes_input (pathSuffix : String) (id : Int) (reqBody : Json)
    (t0 : Todo) (s : StoreState) (hid : Atoi pathSuffix = Except.ok id)
    (hdec : decodeTodo reqBody = Except.ok t0) :
    todosIdHandler pathSuffix Method.put reqBody s =
      HandlerResult.ok { status := 200, body := Body.json { t0 with ID := id } }
        { rows := updateRows s.rows { t0 with ID := id }, nextID := s.nextID } := by
  simp [todosIdHandler, hid, hdec, Update]

/-- C5 witness at a concrete request. -/
theorem C5_put_echoes_input_witness :
    todosIdHandler "5" Method.put (Json.obj [("title", Json.str "x")])
        { rows := [], nextID := 1 } =
      HandlerResult.ok { status := 200, body := Body.json ⟨5, "x", false, 0⟩ }
        { rows := [], nextID := 1 } :=
  C5_put_echoes_input "5" 5 (Json.obj [("title", Json.str "x")])
    ⟨0, "x", false, 0⟩ { rows := [], nextID := 1 } (by rfl) (by rfl)

/-- C6: for every request to /todos/ whose path suffix does not parse as an
integer, the handler responds 400 carrying the parse error message,
whatever the HTTP method, and in particular never 500. -/
theorem C6_bad_id_400 (pathSuffix : String) (e : String) (method : Method)
    (reqBody : Json) (s : StoreState) (h : Atoi pathSuffix = Except.error e) :
    todosIdHandler pathSuffix method reqBody s =
      HandlerResult.ok { status := 400, body := Body.text e } s := by
  simp [todosIdHandler, h]

/-- C6 witness: GET /todos/abc answers 400 with the Atoi error text. -/
theorem C6_bad_id_400_witness :
    todosIdHandler "abc" Method.get Json.null { rows := [], nextID := 1 } =
      HandlerResult.ok
        { status := 400,
          body := Body.text "strconv.Atoi: parsing \"abc\": invalid syntax" }
        { rows := [], nextID := 1 } :=
  C6_bad_id_400 "abc" "strconv.Atoi: parsing \"abc\": invalid syntax"
    Method.get Json.null { rows := [], nextID := 1 } (by rfl)

/-- C7: the size of the list GetAll returns grows by exactly one on each
successful Create and shrinks by exactly one on each successful Delete of
an existing id. -/
theorem C7_getAll_count (s : StoreState) (hnd : (s.rows.map Todo.ID).Nodup) :
    (∀ title now t s', Create s title now = Except.ok (t, s') →
        ∃ l l', GetAll s = Except.ok l ∧ GetAll s' = Except.ok l' ∧
          l'.length = l.length + 1) ∧
      (∀ id s', (∃ r ∈ s.rows, r.ID = id) → Delete s id = Except.ok s' →
        ∃ l l', GetAll s = Except.ok l ∧ GetAll s' = Except.ok l' ∧
          l'.length + 1 = l.length) := by
  constructor
  · intro title now t s' h
    obtain ⟨t0, h0⟩ := Create_state s title now
    rw [h0] at h
    simp only [Except.ok.injEq, Prod.mk.injEq] at h
    obtain ⟨-, h2⟩ := h
    subst h2
    exact ⟨s.rows, _, rfl, rfl, by simp [createdState]⟩
  · intro id s' hex h
    simp only [Delete, Except.ok.injEq] at h
    subst h
    exact ⟨s.rows, _, rfl, rfl, filter_ne_length s.rows id hnd hex⟩

/-- C7 witness at a concrete store: one Create, one Delete. -/
theorem C7_getAll_count_witness :
    (∃ l l', GetAll { rows := [⟨1, "a", false, 0⟩], nextID := 2 } = Except.ok l ∧
        GetAll { rows := [⟨1, "a", false, 0⟩, ⟨2, "b", false, 3⟩], nextID := 3 } =
          Except.ok l' ∧ l'.length = l.length + 1) ∧
      (∃ l l', GetAll { rows := [⟨1, "a", false, 0⟩], nextID := 2 } = Except.ok l ∧
        GetAll { rows := [], nextID := 2 } = Except.ok l' ∧ l'.length + 1 = l.length) :=
  ⟨(C7_getAll_count { rows := [⟨1, "a", false, 0⟩], nextID := 2 } (by simp)).1
      "b" 3 ⟨2, "b", false, 3⟩
      { rows := [⟨1, "a", false, 0⟩, ⟨2, "b", false, 3⟩], nextID := 3 } (by rfl),
    (C7_getAll_count { rows := [⟨1, "a", false, 0⟩], nextID := 2 } (by simp)).2
      1 { rows := [], nextID := 2 } (by simp) (by rfl)⟩

/-- C8: Update modifies at most the Title and Completed fields of the rows
matching the given id: the id and created_at of every row and the
autoincrement counter are unchanged, and every row whose id differs from
the given one is left entirely untouched. -/
theorem C8_update_frame (s : StoreState) (todo : Todo) (s' : StoreState)
    (h : Update s todo = Except.ok s') :
    s'.rows.map (fun r => (r.ID, r.CreatedAt)) =
        s.rows.map (fun r => (r.ID, r.CreatedAt)) ∧
      s'.nextID = s.nextID ∧
      ∀ i (hi : i < s.rows.length) (hj : i < s'.rows.length),
        (s.rows.get ⟨i, hi⟩).ID ≠ todo.ID →
          s'.rows.get ⟨i, hj⟩ = s.rows.get ⟨i, hi⟩ := by
  simp only [Update, Except.ok.injEq] at h
  subst h
  refine ⟨updateRows_map_frame s.rows todo, rfl, ?_⟩
  intro i hi hj hne
  simp only [updateRows, List.get_eq_getElem, List.getElem_map]
  rw [updateRow, if_neg (by simpa using hne)]

/-- C8 witness at a concrete store: the matched row keeps its id and
created_at, and the non-matching row at index 1 is untouched. -/
theorem C8_update_frame_witness :
    ({ rows := [⟨1, "b", true, 7⟩, ⟨2, "keep", true, 8⟩], nextID := 3 } : StoreState).rows.map
          (fun r => (r.ID, r.CreatedAt)) =
        ({ rows := [⟨1, "a", false, 7⟩, ⟨2, "keep", true, 8⟩], nextID := 3 } : StoreState).rows.map
          (fun r => (r.ID, r.CreatedAt)) ∧
      ({ rows := [⟨1, "b", true, 7⟩, ⟨2, "keep", true, 8⟩], nextID := 3 } : StoreState).nextID =
        ({ rows := [⟨1, "a", false, 7⟩, ⟨2, "keep", true, 8⟩], nextID := 3 } : StoreState).nextID ∧
      ({ rows := [⟨1, "b", true, 7⟩, ⟨2, "keep", true, 8⟩], nextID := 3 } : StoreState).rows.get
          ⟨1, by decide⟩ =
        ({ rows := [⟨1, "a", false, 7⟩, ⟨2, "keep", true, 8⟩], nextID := 3 } : StoreState).rows.get
          ⟨1, by decide⟩ :=
  ⟨(C8_update_frame { rows := [⟨1, "a", false, 7⟩, ⟨2, "keep", true, 8⟩], nextID := 3 }
      ⟨1, "b", true, 9⟩
      { rows := [⟨1, "b", true, 7⟩, ⟨2, "keep", true, 8⟩], nextID := 3 } (by rfl)).1,
    (C8_update_frame { rows := [⟨1, "a", false, 7⟩, ⟨2, "keep", true, 8⟩], nextID := 3 }
      ⟨1, "b", true, 9⟩
      { rows := [⟨1, "b", true, 7⟩, ⟨2, "keep", true, 8⟩], nextID := 3 } (by rfl)).2.1,
    (C8_update_frame { rows := [⟨1, "a", false, 7⟩, ⟨2, "keep", true, 8⟩], nextID := 3 }
      ⟨1, "b", true, 9⟩
      { rows := [⟨1, "b", true, 7⟩, ⟨2, "keep", true, 8⟩], nextID := 3 } (by rfl)).2.2
      1 (by decide) (by decide) (by decide)⟩

/-- C9: a POST whose body is a well-formed JSON object without a title
member (or whose every title member is the empty string) is accepted with
200 and creates a stored Todo whose title is the empty string — no
validation happens. -/
theorem C9_empty_title_accepted (fields : List (String × Json)) (s : StoreState)
    (now : Nat) (t0 : Todo) (hWF : ∀ r ∈ s.rows, r.ID < s.nextID)
    (htitle : ∀ v, ("title", v) ∈ fields → v = Json.str "")
    (hdec : decodeTodoPtr (Json.obj fields) = Except.ok (some t0)) :
    todosHandler Method.post (Json.obj fields) s now =
      HandlerResult.ok { status := 200, body := Body.json (insertedRow s "" now) }
        (createdState s "" now) := by
  have hfields : decodeFields zeroTodo fields = Except.ok t0 := by
    simp only [decodeTodoPtr] at hdec
    cases hdf : decodeFields zeroTodo fields with
    | ok t1 =>
      rw [hdf] at hdec
      simp only [Except.ok.injEq, Option.some.injEq] at hdec
      rw [hdec]
    | error e => rw [hdf] at hdec; cases hdec
  have ht : t0.Title = "" := decodeFields_Title fields zeroTodo t0 htitle rfl hfields
  simp [todosHandler, decodeTodoPtr, hfields, ht, Create_eq s "" now hWF]

/-- C9 witness: POST with the body being the empty object. -/
theorem C9_empty_title_accepted_witness :
    todosHandler Method.post (Json.obj []) { rows := [], nextID := 1 } 0 =
      HandlerResult.ok { status := 200, body := Body.json ⟨1, "", false, 0⟩ }
        { rows := [⟨1, "", false, 0⟩], nextID := 2 } :=
  C9_empty_title_accepted [] { rows := [], nextID := 1 } 0 zeroTodo
    (by simp) (by simp) (by rfl)

/-- C10: the well-formed body null decodes without error into a nil *Todo,
and on it the POST handler reaches the nil dereference of todo.Title
instead of any 400 or 500 response. -/
theorem C10_null_body_nil_deref (s : StoreState) (now : Nat) :
    decodeTodoPtr Json.null = Except.ok none ∧
      todosHandler Method.post Json.null s now = HandlerResult.nilDeref :=
  ⟨rfl, by simp [todosHandler, decodeTodoPtr]⟩
